import Mathlib

/-!
# bsc-eth-swap: `swap/utils.go`

A shallow embedding of the helper functions of `swap/utils.go` and the
properties of them that the specification states.

Conventions of the embedding.

* A Go `string` is a Lean `String`; where the code works on the bytes of a
  string (`len`, indexing, scanning), the UTF-8 bytes are taken with `goBytes`.
* A Go `error` is its message, a `String`; a nil error is `none`.
* A Go function returning `(T, error)` returns a structure with both
  components, so that "a value together with a nil error" can be stated.
* A Go `panic` is an outcome of its own (`BuildResult.panicked`).
* Calls to `util.Logger` only write log lines and are left out.
* `*big.Int` is `Int`; `uint64` values that are only passed along are `Nat`.
* Pointers are assumed non-nil (`privateKey`, `ethClient`, `value`, the logs of
  a receipt), as the code assumes by dereferencing them.
* Library functions (`math/big`, `encoding/hex`, go-ethereum `common`, `bind`,
  `types`) are modelled from their documented behaviour; cryptography, the RPC
  client and the generated contract binding are parameters.
-/

namespace Swap

/-! ## Strings as bytes -/

/-- UTF-8 encoding of one character, as Go stores it in a `string`. -/
def utf8Bytes (c : Char) : List Nat :=
  let n := c.toNat
  if n < 0x80 then [n]
  else if n < 0x800 then [0xC0 + n / 64, 0x80 + n % 64]
  else if n < 0x10000 then [0xE0 + n / 4096, 0x80 + (n / 64) % 64, 0x80 + n % 64]
  else [0xF0 + n / 262144, 0x80 + (n / 4096) % 64, 0x80 + (n / 64) % 64, 0x80 + n % 64]

/-- The bytes of a Go string. -/
def goBytes (s : String) : List Nat :=
  (s.data.map utf8Bytes).flatten

/-! ## `math/big`: `(*Int).SetString(s, 10)` -/

/-- Go `big.scanSign`: consumes one leading `+` or `-`; the flag is true for `-`. -/
def scanSign : List Nat → Bool × List Nat
  | 45 :: r => (true, r)
  | 43 :: r => (false, r)
  | r => (false, r)

/-- Go `nat.scan` for base 10 without fraction: consumes the longest run of
decimal digits, returning the value read, the number of digits and the unread
rest. -/
def natScan : List Nat → Nat → Nat → Nat × Nat × List Nat
  | [], acc, count => (acc, count, [])
  | b :: r, acc, count =>
    if 48 ≤ b ∧ b ≤ 57 then natScan r (acc * 10 + (b - 48)) (count + 1)
    else (acc, count, b :: r)

/-- Go `(*big.Int).SetString(s, 10)`: `none` is the `ok = false` result. An
empty input fails in `scanSign` (EOF), an input without digits fails with
`errNoDigits`, and the whole input must be consumed. -/
def SetString (s : String) : Option Int :=
  match goBytes s with
  | [] => none
  | bs =>
    let sr := scanSign bs
    let sc := natScan sr.2 0 0
    if sc.2.1 = 0 then none
    else if sc.2.2 ≠ [] then none
    else some (if sr.1 then -(sc.1 : Int) else (sc.1 : Int))

/-- The grammar of a base-10 integer literal: an optional sign followed by one
or more ASCII decimal digits and nothing else. -/
def isBase10IntegerLiteral (s : String) : Bool :=
  let digits : List Nat → Bool := fun ds => !ds.isEmpty && ds.all (fun b => 48 ≤ b && b ≤ 57)
  match goBytes s with
  | 45 :: ds => digits ds
  | 43 :: ds => digits ds
  | ds => digits ds

/-! ## go-ethereum `common`: `HexToAddress` -/

/-- A 20-byte address (`common.Address`), as the list of its bytes. -/
abbrev Address := List Nat

/-- Number of bytes of an address (`common.AddressLength`). -/
def AddressLength : Nat := 20

/-- The zero value `common.Address{}`. -/
def zeroAddress : Address := List.replicate AddressLength 0

/-- Go `common.has0xPrefix`. -/
def has0xPrefix (bs : List Nat) : Bool :=
  match bs with
  | 48 :: b :: _ => b == 120 || b == 88
  | _ => false

/-- Go `hex.fromHexChar`: the value of one hex digit. -/
def fromHexChar (c : Nat) : Option Nat :=
  if 48 ≤ c ∧ c ≤ 57 then some (c - 48)
  else if 97 ≤ c ∧ c ≤ 102 then some (c - 97 + 10)
  else if 65 ≤ c ∧ c ≤ 70 then some (c - 65 + 10)
  else none

/-- Go `common.Hex2Bytes`: `hex.DecodeString` with the error dropped, which
leaves the bytes decoded before the first invalid character. -/
def Hex2Bytes : List Nat → List Nat
  | p :: q :: r =>
    match fromHexChar p, fromHexChar q with
    | some a, some b => (a * 16 + b) :: Hex2Bytes r
    | _, _ => []
  | _ => []

/-- Go `common.FromHex`. -/
def FromHex (bs : List Nat) : List Nat :=
  let s := if has0xPrefix bs then bs.drop 2 else bs
  let s := if s.length % 2 = 1 then 48 :: s else s
  Hex2Bytes s

/-- Go `common.BytesToAddress`: keeps the last 20 bytes, pads on the left with
zero bytes. -/
def BytesToAddress (b : List Nat) : Address :=
  let b := if b.length > AddressLength then b.drop (b.length - AddressLength) else b
  List.replicate (AddressLength - b.length) 0 ++ b

/-- Go `common.HexToAddress`. It has no error result. -/
def HexToAddress (s : String) : Address :=
  BytesToAddress (FromHex (goBytes s))

/-! ## Go maps keyed by address -/

/-- A Go `map[Address]V`: at most one entry per key; the order has no meaning. -/
abbrev AddrMap (V : Type) := List (Address × V)

/-- Go `m[k] = v`. -/
def AddrMap.assign {V : Type} (m : AddrMap V) (k : Address) (v : V) : AddrMap V :=
  (k, v) :: m.filter (fun e => e.1 != k)

/-- Go `m[k]` with the presence flag. -/
def AddrMap.lookup {V : Type} (m : AddrMap V) (k : Address) : Option V :=
  (m.find? (fun e => e.1 == k)).map Prod.snd

/-- Go `len(m)`. -/
def AddrMap.len {V : Type} (m : AddrMap V) : Nat := m.length

/-! ## `buildSwapPairInstance` -/

/-- The fields of `model.SwapPair` that `buildSwapPairInstance` reads. -/
structure SwapPair where
  Symbol : String
  Name : String
  Decimals : Int
  LowBound : String
  UpperBound : String
  BEP20Addr : String
  ERC20Addr : String
  deriving DecidableEq, Repr

/-- The struct `SwapPairIns`. -/
structure SwapPairIns where
  Symbol : String
  Name : String
  Decimals : Int
  LowBound : Int
  UpperBound : Int
  BEP20Addr : Address
  ERC20Addr : Address
  deriving DecidableEq, Repr

/-- Outcome of `buildSwapPairInstance`: a panic with its message, or the
returned pair `(map, error)`. -/
inductive BuildResult where
  | panicked (msg : String)
  | returned (m : AddrMap SwapPairIns) (err : Option String)
  deriving DecidableEq, Repr

/-- The mapping returned, if the call returned. -/
def BuildResult.mapping : BuildResult → Option (AddrMap SwapPairIns)
  | .panicked _ => none
  | .returned m _ => some m

/-- The record stored for a pair whose bounds parsed to `lo` and `hi`
(lines 42-50). -/
def mkSwapPairIns (pair : SwapPair) (lo hi : Int) : SwapPairIns :=
  { Symbol := pair.Symbol
    Name := pair.Name
    Decimals := pair.Decimals
    LowBound := lo
    UpperBound := hi
    BEP20Addr := HexToAddress pair.BEP20Addr
    ERC20Addr := HexToAddress pair.ERC20Addr }

/-- The loop of `buildSwapPairInstance` (lines 29-53), from the map built so
far. -/
def buildLoop : List SwapPair → AddrMap SwapPairIns → BuildResult
  | [], m => .returned m none
  | pair :: rest, m =>
    match SetString pair.LowBound with
    | none => .panicked ("invalid lowBound amount: " ++ pair.LowBound)
    | some lowBound =>
      match SetString pair.UpperBound with
      | none => .panicked ("invalid upperBound amount: " ++ pair.LowBound)
      | some upperBound =>
        buildLoop rest
          (m.assign (HexToAddress pair.ERC20Addr) (mkSwapPairIns pair lowBound upperBound))

/-- Go `buildSwapPairInstance`. -/
def buildSwapPairInstance (pairs : List SwapPair) : BuildResult :=
  buildLoop pairs []

/-! ## `buildSignedTransaction`, `buildNativeCoinTransferTx` -/

/-- Go `ethereum.CallMsg`, the fields the code sets and `Gas`, left zero. -/
structure CallMsg where
  From : Address
  To : Option Address
  Gas : Nat
  GasPrice : Int
  Value : Int
  Data : List Nat
  deriving DecidableEq, Repr

/-- Go `types.Transaction` (legacy transaction data). -/
structure Transaction where
  AccountNonce : Nat
  Price : Int
  GasLimit : Nat
  Recipient : Option Address
  Amount : Int
  Payload : List Nat
  V : Int
  R : Int
  S : Int
  deriving DecidableEq, Repr

/-- Go `types.NewTransaction`: an unsigned transaction, signature values zero. -/
def NewTransaction (nonce : Nat) (recipient : Address) (amount : Int) (gasLimit : Nat)
    (gasPrice : Int) (data : List Nat) : Transaction :=
  { AccountNonce := nonce
    Price := gasPrice
    GasLimit := gasLimit
    Recipient := some recipient
    Amount := amount
    Payload := data
    V := 0
    R := 0
    S := 0 }

/-- The values `(R, S, V)` of a signature. -/
structure Signature where
  R : Int
  S : Int
  V : Int
  deriving DecidableEq, Repr

/-- The cryptography the transactor relies on, for a type `Key` of private
keys: `crypto.PubkeyToAddress` of the key, and `crypto.Sign` of the
`HomesteadSigner` hash of a transaction followed by `SignatureValues`. -/
structure Crypto (Key : Type) where
  PubkeyToAddress : Key → Address
  Sign : Key → Transaction → Except String Signature

/-- Go `bind.TransactOpts`, the fields used. -/
structure TransactOpts where
  From : Address
  Signer : Address → Transaction → Except String Transaction

/-- Go `bind.NewKeyedTransactor`; the signer is applied with
`types.HomesteadSigner{}` and ends in `tx.WithSignature`. -/
def NewKeyedTransactor {Key : Type} (crypto : Crypto Key) (key : Key) : TransactOpts :=
  let keyAddr := crypto.PubkeyToAddress key
  { From := keyAddr
    Signer := fun address tx =>
      if address ≠ keyAddr then .error "not authorized to sign this account"
      else
        match crypto.Sign key tx with
        | .error err => .error err
        | .ok sig => .ok { tx with R := sig.R, S := sig.S, V := sig.V } }

/-- The RPC client `ethclient.Client` over a chain state `σ`: every query
answers from the current state and may change it. -/
structure EthClient (σ : Type) where
  PendingNonceAt : σ → Address → Except String Nat × σ
  SuggestGasPrice : σ → Except String Int × σ
  EstimateGas : σ → CallMsg → Except String Nat × σ

/-- The external steps a build performs, in order. -/
inductive Step where
  | pendingNonceAt (account : Address)
  | suggestGasPrice
  | estimateGas (msg : CallMsg)
  | sign (address : Address) (tx : Transaction)
  deriving DecidableEq, Repr

/-- The pair `(*types.Transaction, error)` a build returns, with the chain
state it leaves and the steps it performed. -/
structure TxResult (σ : Type) where
  tx : Option Transaction
  err : Option String
  world : σ
  steps : List Step

/-- Go `buildSignedTransaction`. -/
def buildSignedTransaction {Key σ : Type} (crypto : Crypto Key) (ethClient : EthClient σ)
    (w : σ) (contract : Address) (txInput : List Nat) (privateKey : Key) : TxResult σ :=
  let txOpts := NewKeyedTransactor crypto privateKey
  match ethClient.PendingNonceAt w txOpts.From with
  | (.error err, w1) => ⟨none, some err, w1, [.pendingNonceAt txOpts.From]⟩
  | (.ok nonce, w1) =>
    match ethClient.SuggestGasPrice w1 with
    | (.error err, w2) => ⟨none, some err, w2, [.pendingNonceAt txOpts.From, .suggestGasPrice]⟩
    | (.ok gasPrice, w2) =>
      let value : Int := 0
      let msg : CallMsg :=
        { From := txOpts.From, To := some contract, Gas := 0, GasPrice := gasPrice,
          Value := value, Data := txInput }
      match ethClient.EstimateGas w2 msg with
      | (.error err, w3) =>
        ⟨none, some ("failed to estimate gas needed: " ++ err), w3,
          [.pendingNonceAt txOpts.From, .suggestGasPrice, .estimateGas msg]⟩
      | (.ok gasLimit, w3) =>
        let rawTx := NewTransaction nonce contract value gasLimit gasPrice txInput
        let steps : List Step :=
          [.pendingNonceAt txOpts.From, .suggestGasPrice, .estimateGas msg,
            .sign txOpts.From rawTx]
        match txOpts.Signer txOpts.From rawTx with
        | .error err => ⟨none, some err, w3, steps⟩
        | .ok signedTx => ⟨some signedTx, none, w3, steps⟩

/-- Go `buildNativeCoinTransferTx`. -/
def buildNativeCoinTransferTx {Key σ : Type} (crypto : Crypto Key) (ethClient : EthClient σ)
    (w : σ) (contract : Address) (value : Int) (privateKey : Key) : TxResult σ :=
  let txOpts := NewKeyedTransactor crypto privateKey
  match ethClient.PendingNonceAt w txOpts.From with
  | (.error err, w1) => ⟨none, some err, w1, [.pendingNonceAt txOpts.From]⟩
  | (.ok nonce, w1) =>
    match ethClient.SuggestGasPrice w1 with
    | (.error err, w2) => ⟨none, some err, w2, [.pendingNonceAt txOpts.From, .suggestGasPrice]⟩
    | (.ok gasPrice, w2) =>
      let msg : CallMsg :=
        { From := txOpts.From, To := some contract, Gas := 0, GasPrice := gasPrice,
          Value := value, Data := [] }
      match ethClient.EstimateGas w2 msg with
      | (.error err, w3) =>
        ⟨none, some ("failed to estimate gas needed: " ++ err), w3,
          [.pendingNonceAt txOpts.From, .suggestGasPrice, .estimateGas msg]⟩
      | (.ok gasLimit, w3) =>
        let rawTx := NewTransaction nonce contract value gasLimit gasPrice []
        let steps : List Step :=
          [.pendingNonceAt txOpts.From, .suggestGasPrice, .estimateGas msg,
            .sign txOpts.From rawTx]
        match txOpts.Signer txOpts.From rawTx with
        | .error err => ⟨none, some err, w3, steps⟩
        | .ok signedTx => ⟨some signedTx, none, w3, steps⟩

/-! ## `queryDeployedBEP20ContractAddr` -/

/-- Go `types.Log`, the fields an event decoder reads. -/
structure Log where
  Address : Address
  Topics : List (List Nat)
  Data : List Nat
  deriving DecidableEq, Repr

/-- Go `types.Receipt`, the field the code reads. -/
structure Receipt where
  Logs : List Log
  deriving DecidableEq, Repr

/-- The event `contractabi.BSCSwapAgentSwapPairCreated`; the code reads
`Bep20Addr`. -/
structure SwapPairCreated where
  EthRegisterTxHash : List Nat
  Bep20Addr : Address
  Erc20Addr : Address
  Symbol : String
  Name : String
  Decimals : Nat
  deriving DecidableEq, Repr

/-- The bound contract `*contractabi.BSCSwapAgent` of the generated binding,
which is not part of this file: its decoder `ParseSwapPairCreated`, returning
the Go pair `(*event, error)`. -/
structure BSCSwapAgent where
  ParseSwapPairCreated : Log → Option SwapPairCreated × Option String

/-- The pair `(common.Address, error)`. -/
structure AddrResult where
  addr : Address
  err : Option String
  deriving DecidableEq, Repr

/-- Go `queryDeployedBEP20ContractAddr`. `NewBSCSwapAgent` is the constructor of
the generated binding, already applied to the client; `erc20Addr` is only logged. -/
def queryDeployedBEP20ContractAddr (NewBSCSwapAgent : Address → Except String BSCSwapAgent)
    (_erc20Addr : Address) (bscSwapAgentAddr : Address) (txRecipient : Receipt) : AddrResult :=
  match NewBSCSwapAgent bscSwapAgentAddr with
  | .error err => ⟨zeroAddress, some err⟩
  | .ok swapAgentInstance =>
    if h : txRecipient.Logs.length ≠ 2 then
      ⟨zeroAddress, some ("Expected tx logs length in recipient is 2, actual it is "
        ++ toString txRecipient.Logs.length)⟩
    else
      match swapAgentInstance.ParseSwapPairCreated (txRecipient.Logs.get ⟨1, by omega⟩) with
      | (_, some err) => ⟨zeroAddress, some err⟩
      | (none, none) => ⟨zeroAddress, none⟩
      | (some createSwapEvent, none) => ⟨createSwapEvent.Bep20Addr, none⟩

/-! ## `BuildKeys` -/

/-- Go `strings.HasPrefix`. -/
def HasPrefix (s pre : String) : Bool :=
  pre.data.isPrefixOf s.data

/-- The triple `(*ecdsa.PrivateKey, *ecdsa.PublicKey, error)`. -/
structure KeyResult (Priv Pub : Type) where
  priKey : Option Priv
  publicKey : Option Pub
  err : Option String
  deriving DecidableEq, Repr

/-- Go `BuildKeys`. `HexToECDSA` is `crypto.HexToECDSA`; `Public` is
`priKey.Public()` followed by the type assertion to `*ecdsa.PublicKey`, `none`
when the assertion fails. -/
def BuildKeys {Priv Pub : Type} (HexToECDSA : String → Except String Priv)
    (Public : Priv → Option Pub) (privateKeyStr : String) : KeyResult Priv Pub :=
  let privateKeyStr :=
    if HasPrefix privateKeyStr "0x" then String.mk (privateKeyStr.data.drop 2)
    else privateKeyStr
  match HexToECDSA privateKeyStr with
  | .error err => ⟨none, none, some err⟩
  | .ok priKey =>
    match Public priKey with
    | none => ⟨none, none, some "get public key error"⟩
    | some publicKey => ⟨some priKey, some publicKey, none⟩

/-! ## Specification-side vocabulary -/

/-- Both bound strings of a pair are accepted by `SetString`. -/
def boundsParse (p : SwapPair) : Bool :=
  (SetString p.LowBound).isSome && (SetString p.UpperBound).isSome

/-- The record the loop stores for a pair (zero stands in for a bound that
does not parse; the loop never stores such a record). -/
def recordOf (p : SwapPair) : SwapPairIns :=
  mkSwapPairIns p ((SetString p.LowBound).getD 0) ((SetString p.UpperBound).getD 0)

/-- The key under which the loop stores a pair. -/
def keyOf (p : SwapPair) : Address := HexToAddress p.ERC20Addr

/-- The map after the loop has stored every pair of a list whose bounds parse. -/
def storeAll (pairs : List SwapPair) (m : AddrMap SwapPairIns) : AddrMap SwapPairIns :=
  pairs.foldl (fun acc p => acc.assign (keyOf p) (recordOf p)) m

/-- A string that denotes exactly 20 bytes in hex: an optional `0x` or `0X`
followed by exactly 40 hex digits. -/
def isHexAddress (s : String) : Bool :=
  let bs := goBytes s
  let ds := if has0xPrefix bs then bs.drop 2 else bs
  ds.length == 2 * AddressLength && ds.all (fun b => (fromHexChar b).isSome)

/-- The three chain queries of a build succeed in order from the state `w`:
the pending nonce of `sender`, then the suggested gas price, then the gas
estimate for the call message built with that gas price; `w3` is the state
they leave. -/
def Snapshot {σ : Type} (cl : EthClient σ) (w : σ) (sender : Address) (msg : Int → CallMsg)
    (nonce : Nat) (gasPrice : Int) (gasLimit : Nat) (w3 : σ) : Prop :=
  ∃ w1 w2, cl.PendingNonceAt w sender = (Except.ok nonce, w1) ∧
    cl.SuggestGasPrice w1 = (Except.ok gasPrice, w2) ∧
    cl.EstimateGas w2 (msg gasPrice) = (Except.ok gasLimit, w3)

/-- What "a build fails closed" says of a result `r`, for a build that sends
the call message `msg gasPrice` and signs the transaction
`raw nonce gasPrice gasLimit`:

1. `r` holds a transaction or an error, never both and never neither;
2. a transaction is returned only when the three queries and the signature
   all succeeded;
3. a failed nonce query gives its error and no transaction;
4. a failed gas-price query gives its error and no transaction;
5. a failed gas estimation gives the wrapped estimation error, no transaction,
   and no signing step among the steps performed;
6. a failed signature gives its error and no transaction. -/
def FailsClosed {Key σ : Type} (crypto : Crypto Key) (cl : EthClient σ) (w : σ) (key : Key)
    (msg : Int → CallMsg) (raw : Nat → Int → Nat → Transaction) (r : TxResult σ) : Prop :=
  (r.tx = none ↔ r.err ≠ none) ∧
  (∀ t, r.tx = some t → ∃ nonce gp gl sig,
    Snapshot cl w (crypto.PubkeyToAddress key) msg nonce gp gl r.world ∧
    crypto.Sign key (raw nonce gp gl) = Except.ok sig) ∧
  (∀ e w1, cl.PendingNonceAt w (crypto.PubkeyToAddress key) = (Except.error e, w1) →
    r.tx = none ∧ r.err = some e) ∧
  (∀ nonce w1 e w2,
    cl.PendingNonceAt w (crypto.PubkeyToAddress key) = (Except.ok nonce, w1) →
    cl.SuggestGasPrice w1 = (Except.error e, w2) →
    r.tx = none ∧ r.err = some e) ∧
  (∀ nonce w1 gp w2 e w3,
    cl.PendingNonceAt w (crypto.PubkeyToAddress key) = (Except.ok nonce, w1) →
    cl.SuggestGasPrice w1 = (Except.ok gp, w2) →
    cl.EstimateGas w2 (msg gp) = (Except.error e, w3) →
    r.tx = none ∧ r.err = some ("failed to estimate gas needed: " ++ e) ∧
      ∀ a t, Step.sign a t ∉ r.steps) ∧
  (∀ nonce gp gl w3 e,
    Snapshot cl w (crypto.PubkeyToAddress key) msg nonce gp gl w3 →
    crypto.Sign key (raw nonce gp gl) = Except.error e →
    r.tx = none ∧ r.err = some e)

/-- A string of hex digits only. -/
def isHexString (s : String) : Bool :=
  s.data.all (fun c => (fromHexChar c.toNat).isSome)

/-- The result of lines 188-196 of `BuildKeys` on a string taken as it is: what
the hex-to-key parser makes of it. -/
def keysOf {Priv Pub : Type} (HexToECDSA : String → Except String Priv)
    (Public : Priv → Option Pub) (t : String) : KeyResult Priv Pub :=
  match HexToECDSA t with
  | .error err => ⟨none, none, some err⟩
  | .ok priKey =>
    match Public priKey with
    | none => ⟨none, none, some "get public key error"⟩
    | some publicKey => ⟨some priKey, some publicKey, none⟩

/-! ## Example inputs -/

/-- The pair of the scenario of the specification. -/
def tknPair : SwapPair :=
  { Symbol := "TKN"
    Name := "Token"
    Decimals := 18
    LowBound := "100"
    UpperBound := "1000000"
    BEP20Addr := "0x2222222222222222222222222222222222222222"
    ERC20Addr := "0x1111111111111111111111111111111111111111" }

/-- A pair whose lower bound is not a number. -/
def abcPair : SwapPair :=
  { Symbol := "ABC"
    Name := "Abc"
    Decimals := 18
    LowBound := "abc"
    UpperBound := "10"
    BEP20Addr := "0x4444444444444444444444444444444444444444"
    ERC20Addr := "0x3333333333333333333333333333333333333333" }

/-- The source address of `tknPair` spelled without `0x`, other bounds. -/
def tknUpperPair : SwapPair :=
  { Symbol := "TKN2"
    Name := "Token two"
    Decimals := 6
    LowBound := "5"
    UpperBound := "50"
    BEP20Addr := "0X5555555555555555555555555555555555555555"
    ERC20Addr := "1111111111111111111111111111111111111111" }

/-- A pair with another source address, written in upper-case hex. -/
def otherPair : SwapPair :=
  { Symbol := "OTH"
    Name := "Other"
    Decimals := 8
    LowBound := "1"
    UpperBound := "2"
    BEP20Addr := "0xabababababababababababababababababababab"
    ERC20Addr := "0xCDCDCDCDCDCDCDCDCDCDCDCDCDCDCDCDCDCDCDCD" }

/-- The source address of `otherPair` in lower case behind `0X`. -/
def otherLowerPair : SwapPair :=
  { Symbol := "OTH2"
    Name := "Other two"
    Decimals := 8
    LowBound := "3"
    UpperBound := "4"
    BEP20Addr := "0xefefefefefefefefefefefefefefefefefefefef"
    ERC20Addr := "0Xcdcdcdcdcdcdcdcdcdcdcdcdcdcdcdcdcdcdcdcd" }

/-- A pair whose bounds are negative and in the wrong order. -/
def negativePair : SwapPair :=
  { Symbol := "NEG"
    Name := "Negative"
    Decimals := 18
    LowBound := "-7"
    UpperBound := "-9"
    BEP20Addr := "0x2222222222222222222222222222222222222222"
    ERC20Addr := "0x1111111111111111111111111111111111111111" }

/-- A pair whose source address is not hex and whose destination address has
21 bytes. -/
def badAddrPair : SwapPair :=
  { Symbol := "BAD"
    Name := "Bad"
    Decimals := 18
    LowBound := "1"
    UpperBound := "2"
    BEP20Addr := "0xff2222222222222222222222222222222222222222"
    ERC20Addr := "not-an-address" }

/-- A chain client whose queries all succeed; its state counts the queries. -/
def okClient : EthClient Nat :=
  { PendingNonceAt := fun w _ => (Except.ok 7, w + 1)
    SuggestGasPrice := fun w => (Except.ok 5000000000, w + 1)
    EstimateGas := fun w msg => (Except.ok (21000 + 68 * msg.Data.length), w + 1) }

/-- A chain client for which the simulated call reverts. -/
def revertClient : EthClient Nat :=
  { PendingNonceAt := fun w _ => (Except.ok 7, w + 1)
    SuggestGasPrice := fun w => (Except.ok 5000000000, w + 1)
    EstimateGas := fun w _ => (Except.error "execution reverted", w + 1) }

/-- A stand-in for the cryptography, keys being numbers. -/
def toyCrypto : Crypto Nat :=
  { PubkeyToAddress := fun k => List.replicate 20 (k % 256)
    Sign := fun k tx => Except.ok { R := k + tx.AccountNonce, S := 2, V := 27 } }

/-- The topic that `sampleAgent` takes for the pair-creation event. -/
def pairCreatedTopic : List Nat := List.replicate 32 171

/-- A stand-in for the generated binding: a log whose first topic is
`pairCreatedTopic` decodes to an event whose token address is the first 20
bytes of the log data; any other log is a decoding error. -/
def sampleAgent : BSCSwapAgent :=
  { ParseSwapPairCreated := fun log =>
      if log.Topics.head? = some pairCreatedTopic then
        (some
          { EthRegisterTxHash := List.replicate 32 1
            Bep20Addr := log.Data.take 20
            Erc20Addr := List.replicate 20 17
            Symbol := "TKN"
            Name := "Token"
            Decimals := 18 }, none)
      else (none, some "event signature mismatch") }

/-- A log of some other event. -/
def approvalLog : Log :=
  { Address := List.replicate 20 17, Topics := [List.replicate 32 5], Data := [0, 1] }

/-- A pair-creation log for the token address `0x3434...`. -/
def pairCreatedLog : Log :=
  { Address := List.replicate 20 8, Topics := [pairCreatedTopic],
    Data := List.replicate 20 52 }

/-- A stand-in for `crypto.HexToECDSA`: a key is the list of its hex digits,
and exactly 64 of them are required. -/
def toyHexToECDSA (t : String) : Except String (List Char) :=
  if t.data.length = 64 ∧ isHexString t = true then Except.ok t.data
  else Except.error "invalid hex data for private key"

/-- A stand-in for the public key of a `toyHexToECDSA` key. -/
def toyPublic (k : List Char) : Option (List Char) := some k.reverse

/-- A private key written as 64 hex digits. -/
def sampleKeyHex : String :=
  "4c0883a69102937d6231471b5dbb6204fe5129617082792ae468d01a3f362318"

/-! ## Lemmas on `SetString` -/

theorem natScan_rest (l : List Nat) (acc count : Nat) :
    (natScan l acc count).2.2 = [] ↔ l.all (fun b => 48 ≤ b && b ≤ 57) = true := by
  induction l generalizing acc count with
  | nil => simp [natScan]
  | cons b r ih =>
    by_cases hb : 48 ≤ b ∧ b ≤ 57
    · simp [natScan, hb, ih]
    · have hb2 : ¬ (48 ≤ b ∧ b ≤ 57) := hb
      simp only [natScan, if_neg hb]
      simp only [not_and, not_le] at hb2
      simp
      intro h1 h2
      exact absurd (hb2 h1) (by omega)

theorem natScan_count (l : List Nat) (acc count : Nat) :
    (natScan l acc count).2.1 = 0 ↔
      count = 0 ∧ (l = [] ∨ ∃ b r, l = b :: r ∧ ¬ (48 ≤ b ∧ b ≤ 57)) := by
  induction l generalizing acc count with
  | nil => simp [natScan]
  | cons b r ih =>
    by_cases hb : 48 ≤ b ∧ b ≤ 57
    · simp only [natScan, if_pos hb, ih]
      simp
      intro _
      exact hb
    · simp only [natScan, if_neg hb]
      simp
      intro _ h1
      simp only [not_and, not_le] at hb
      exact hb h1

theorem natScan_accepts (l : List Nat) :
    ((natScan l 0 0).2.1 ≠ 0 ∧ (natScan l 0 0).2.2 = []) ↔
      (!l.isEmpty && l.all (fun b => 48 ≤ b && b ≤ 57)) = true := by
  rw [natScan_rest, Ne, natScan_count]
  cases l with
  | nil => simp
  | cons b r => simp

theorem SetString_isSome_of_digits (sign : Bool) (l : List Nat) :
    (if (natScan l 0 0).2.1 = 0 then (none : Option Int)
      else if (natScan l 0 0).2.2 ≠ [] then none
      else some (if sign then -((natScan l 0 0).1 : Int) else ((natScan l 0 0).1 : Int))).isSome
      = (!l.isEmpty && l.all (fun b => 48 ≤ b && b ≤ 57)) := by
  have h := natScan_accepts l
  by_cases h1 : (natScan l 0 0).2.1 = 0
  · rw [if_pos h1]
    have : ¬ ((!l.isEmpty && l.all (fun b => 48 ≤ b && b ≤ 57)) = true) := by
      rw [← h]; exact fun hh => hh.1 h1
    simpa using this
  · rw [if_neg h1]
    by_cases h2 : (natScan l 0 0).2.2 = []
    · rw [if_neg (by simpa using h2)]
      have : (!l.isEmpty && l.all (fun b => 48 ≤ b && b ≤ 57)) = true := h.1 ⟨h1, h2⟩
      rw [this]; rfl
    · rw [if_pos h2]
      have : ¬ ((!l.isEmpty && l.all (fun b => 48 ≤ b && b ≤ 57)) = true) := by
        rw [← h]; exact fun hh => h2 hh.2
      simpa using this

/-- `SetString` accepts exactly the base-10 integer literals. -/
theorem SetString_isSome (s : String) : (SetString s).isSome = isBase10IntegerLiteral s := by
  unfold SetString isBase10IntegerLiteral
  generalize goBytes s = bs
  rcases bs with _ | ⟨b, r⟩
  · rfl
  · by_cases h45 : b = 45
    · subst h45
      exact SetString_isSome_of_digits true r
    · by_cases h43 : b = 43
      · subst h43
        exact SetString_isSome_of_digits false r
      · have hs : scanSign (b :: r) = (false, b :: r) := by
          unfold scanSign
          split
          · next r1 h => exact absurd (List.cons.inj h).1 h45
          · next r1 h => exact absurd (List.cons.inj h).1 h43
          · rfl
        simp only [hs]
        rw [SetString_isSome_of_digits false (b :: r)]
        split
        · next ds h => exact absurd (List.cons.inj h).1 h45
        · next ds h => exact absurd (List.cons.inj h).1 h43
        · rfl

/-! ## Lemmas on maps and on the loop -/

theorem AddrMap.mem_assign {V : Type} (m : AddrMap V) (k : Address) (v : V)
    (e : Address × V) : e ∈ m.assign k v ↔ e = (k, v) ∨ (e ∈ m ∧ e.1 ≠ k) := by
  simp [AddrMap.assign, List.mem_filter]

theorem AddrMap.keys_assign {V : Type} (m : AddrMap V) (k : Address) (v : V)
    (a : Address) : a ∈ (m.assign k v).map Prod.fst ↔ a = k ∨ a ∈ m.map Prod.fst := by
  simp only [List.mem_map, AddrMap.mem_assign]
  constructor
  · rintro ⟨e, he | ⟨he, _⟩, rfl⟩
    · left; rw [he]
    · right; exact ⟨e, he, rfl⟩
  · rintro (rfl | ⟨e, he, rfl⟩)
    · exact ⟨(a, v), Or.inl rfl, rfl⟩
    · by_cases hk : e.1 = k
      · exact ⟨(k, v), Or.inl rfl, hk.symm⟩
      · exact ⟨e, Or.inr ⟨he, hk⟩, rfl⟩

theorem AddrMap.nodup_assign {V : Type} (m : AddrMap V) (k : Address) (v : V)
    (h : (m.map Prod.fst).Nodup) : ((m.assign k v).map Prod.fst).Nodup := by
  unfold AddrMap.assign
  rw [List.map_cons, List.nodup_cons]
  constructor
  · simp [List.mem_filter]
  · exact (List.Nodup.sublist (List.Sublist.map _ (List.filter_sublist m)) h)

theorem AddrMap.find_filter_ne {V : Type} (m : AddrMap V) (k a : Address) (hk : k ≠ a) :
    (m.filter (fun e => e.1 != k)).find? (fun e => e.1 == a) = m.find? (fun e => e.1 == a) := by
  induction m with
  | nil => rfl
  | cons e r ih =>
    by_cases hea : e.1 = a
    · have hak : ¬ a = k := fun h => hk h.symm
      simp [List.filter_cons, List.find?_cons, hak, hea]
    · by_cases hek : e.1 = k
      · simp only [List.filter_cons, List.find?_cons, hek, bne_self_eq_false]
        have hka : (k == a) = false := by simpa using hk
        simpa [hka] using ih
      · have hek2 : (e.1 != k) = true := by simpa using hek
        have hea2 : (e.1 == a) = false := by simpa using hea
        simp only [List.filter_cons, List.find?_cons, hek2, hea2, if_true]
        exact ih

theorem AddrMap.lookup_assign {V : Type} (m : AddrMap V) (k : Address) (v : V)
    (a : Address) : (m.assign k v).lookup a = if k = a then some v else m.lookup a := by
  unfold AddrMap.lookup AddrMap.assign
  by_cases hk : k = a
  · simp [hk, List.find?_cons]
  · simp only [if_neg hk]
    have h1 : ((k, v).1 == a) = false := by simpa using hk
    rw [List.find?_cons, h1, AddrMap.find_filter_ne m k a hk]

theorem buildLoop_returned (pairs : List SwapPair) (m : AddrMap SwapPairIns)
    (h : ∀ p ∈ pairs, boundsParse p = true) :
    buildLoop pairs m = .returned (storeAll pairs m) none := by
  induction pairs generalizing m with
  | nil => rfl
  | cons p r ih =>
    have hp := h p (List.mem_cons_self p r)
    simp only [boundsParse, Bool.and_eq_true, Option.isSome_iff_exists] at hp
    obtain ⟨⟨lo, hlo⟩, ⟨hi, hhi⟩⟩ := hp
    have hr : ∀ q ∈ r, boundsParse q = true := fun q hq => h q (List.mem_cons_of_mem p hq)
    simp only [buildLoop, hlo, hhi, storeAll, List.foldl_cons]
    rw [ih _ hr]
    simp [storeAll, keyOf, recordOf, hlo, hhi]

theorem buildLoop_panicked (pairs : List SwapPair) (m : AddrMap SwapPairIns)
    (h : ∃ p ∈ pairs, boundsParse p = false) : ∃ msg, buildLoop pairs m = .panicked msg := by
  induction pairs generalizing m with
  | nil => simp at h
  | cons p r ih =>
    cases hlo : SetString p.LowBound with
    | none => exact ⟨"invalid lowBound amount: " ++ p.LowBound, by simp [buildLoop, hlo]⟩
    | some lo =>
      cases hhi : SetString p.UpperBound with
      | none =>
        exact ⟨"invalid upperBound amount: " ++ p.LowBound, by simp [buildLoop, hlo, hhi]⟩
      | some hi =>
        have hp : boundsParse p = true := by simp [boundsParse, hlo, hhi]
        obtain ⟨q, hq, hqf⟩ := h
        have hqr : q ∈ r := by
          rcases List.mem_cons.mp hq with rfl | hqr
          · rw [hp] at hqf; exact absurd hqf (by decide)
          · exact hqr
        obtain ⟨msg, hmsg⟩ := ih (m.assign (HexToAddress p.ERC20Addr) (mkSwapPairIns p lo hi))
          ⟨q, hqr, hqf⟩
        exact ⟨msg, by simp [buildLoop, hlo, hhi, hmsg]⟩

theorem mem_storeAll (pairs : List SwapPair) (m : AddrMap SwapPairIns)
    (e : Address × SwapPairIns) (h : e ∈ storeAll pairs m) :
    e ∈ m ∨ ∃ p ∈ pairs, e = (keyOf p, recordOf p) := by
  induction pairs generalizing m with
  | nil => exact Or.inl h
  | cons p r ih =>
    rcases ih _ h with h1 | ⟨q, hq, he⟩
    · rcases (AddrMap.mem_assign m _ _ e).mp h1 with h2 | ⟨h2, _⟩
      · exact Or.inr ⟨p, List.mem_cons_self p r, h2⟩
      · exact Or.inl h2
    · exact Or.inr ⟨q, List.mem_cons_of_mem p hq, he⟩

theorem keys_storeAll (pairs : List SwapPair) (m : AddrMap SwapPairIns) (a : Address) :
    a ∈ (storeAll pairs m).map Prod.fst ↔ a ∈ m.map Prod.fst ∨ a ∈ pairs.map keyOf := by
  induction pairs generalizing m with
  | nil => simp [storeAll]
  | cons p r ih =>
    have h := ih (m.assign (keyOf p) (recordOf p))
    simp only [storeAll, List.foldl_cons] at h ⊢
    rw [h, AddrMap.keys_assign, List.map_cons, List.mem_cons]
    constructor
    · rintro ((h1 | h1) | h1)
      · exact Or.inr (Or.inl h1)
      · exact Or.inl h1
      · exact Or.inr (Or.inr h1)
    · rintro (h1 | h1 | h1)
      · exact Or.inl (Or.inr h1)
      · exact Or.inl (Or.inl h1)
      · exact Or.inr h1

theorem nodup_storeAll (pairs : List SwapPair) (m : AddrMap SwapPairIns)
    (h : (m.map Prod.fst).Nodup) : ((storeAll pairs m).map Prod.fst).Nodup := by
  induction pairs generalizing m with
  | nil => exact h
  | cons p r ih => exact ih _ (AddrMap.nodup_assign m _ _ h)

theorem lookup_storeAll (pairs : List SwapPair) (m : AddrMap SwapPairIns) (a : Address) :
    (storeAll pairs m).lookup a =
      match pairs.reverse.find? (fun r => keyOf r == a) with
      | some q => some (recordOf q)
      | none => m.lookup a := by
  induction pairs generalizing m with
  | nil => simp [storeAll]
  | cons p r ih =>
    have h := ih (m.assign (keyOf p) (recordOf p))
    simp only [storeAll, List.foldl_cons] at h ⊢
    rw [h, List.reverse_cons, List.find?_append]
    cases hf : List.find? (fun r => keyOf r == a) r.reverse with
    | some q => simp
    | none =>
      simp only [Option.none_or, AddrMap.lookup_assign]
      by_cases hk : keyOf p = a
      · simp [hk, List.find?_cons]
      · simp [hk, List.find?_cons]

theorem BytesToAddress_length (b : List Nat) : (BytesToAddress b).length = AddressLength := by
  unfold BytesToAddress
  simp only [List.length_append, List.length_replicate]
  split
  · next h => simp only [List.length_drop]; omega
  · next h => omega

theorem HexToAddress_length (s : String) : (HexToAddress s).length = 20 :=
  BytesToAddress_length _

/-! ## `buildSwapPairInstance`: the claims -/

/-- C1: if some pair of the list has a `LowBound` or `UpperBound` string that is
not a base-10 integer literal, `buildSwapPairInstance` fails (it panics with an
"invalid ... amount" message) and returns no mapping at all, whatever
well-formed pairs precede the malformed one. -/
theorem buildSwapPairInstance_malformed_bound (pairs : List SwapPair)
    (h : ∃ p ∈ pairs, isBase10IntegerLiteral p.LowBound = false ∨
      isBase10IntegerLiteral p.UpperBound = false) :
    (∃ msg, buildSwapPairInstance pairs = BuildResult.panicked msg) ∧
      (buildSwapPairInstance pairs).mapping = none := by
  have hb : ∃ p ∈ pairs, boundsParse p = false := by
    obtain ⟨p, hp, hlit⟩ := h
    refine ⟨p, hp, ?_⟩
    unfold boundsParse
    rw [SetString_isSome, SetString_isSome]
    rcases hlit with h1 | h1 <;> simp [h1]
  obtain ⟨msg, hmsg⟩ := buildLoop_panicked pairs [] hb
  refine ⟨⟨msg, hmsg⟩, ?_⟩
  unfold buildSwapPairInstance
  rw [hmsg]
  rfl

/-- C1, at a list whose second pair has the lower bound `abc`. -/
theorem buildSwapPairInstance_malformed_bound_witness :
    (∃ p ∈ [tknPair, abcPair], isBase10IntegerLiteral p.LowBound = false ∨
      isBase10IntegerLiteral p.UpperBound = false) ∧
    ((∃ msg, buildSwapPairInstance [tknPair, abcPair] = BuildResult.panicked msg) ∧
      (buildSwapPairInstance [tknPair, abcPair]).mapping = none) :=
  ⟨by decide, buildSwapPairInstance_malformed_bound [tknPair, abcPair] (by decide)⟩

/-- C5: for a list of pairs whose bound strings all parse, the mapping returned
by `buildSwapPairInstance` has as many entries as there are distinct values
`HexToAddress p.ERC20Addr` among the pairs of the list. -/
theorem buildSwapPairInstance_size (pairs : List SwapPair)
    (h : ∀ p ∈ pairs, boundsParse p = true) :
    ∃ m, buildSwapPairInstance pairs = BuildResult.returned m none ∧
      m.len = ((pairs.map (fun p => HexToAddress p.ERC20Addr)).dedup).length := by
  refine ⟨storeAll pairs [], buildLoop_returned pairs [] h, ?_⟩
  have hnd : ((storeAll pairs []).map Prod.fst).Nodup :=
    nodup_storeAll pairs [] List.nodup_nil
  have hperm : ((storeAll pairs []).map Prod.fst).Perm
      ((pairs.map (fun p => HexToAddress p.ERC20Addr)).dedup) := by
    rw [List.perm_ext_iff_of_nodup hnd (List.nodup_dedup _)]
    intro a
    rw [keys_storeAll, List.mem_dedup]
    simp [keyOf]
  have hlen := hperm.length_eq
  rw [List.length_map] at hlen
  exact hlen

/-- C5, at four pairs that spell two source addresses in two ways each (with
and without `0x`, in upper and in lower case): two entries. -/
theorem buildSwapPairInstance_size_witness :
    (∀ p ∈ [tknPair, otherPair, tknUpperPair, otherLowerPair], boundsParse p = true) ∧
    (∃ m, buildSwapPairInstance [tknPair, otherPair, tknUpperPair, otherLowerPair]
        = BuildResult.returned m none ∧
      m.len = (([tknPair, otherPair, tknUpperPair, otherLowerPair].map
        (fun p => HexToAddress p.ERC20Addr)).dedup).length) ∧
    (([tknPair, otherPair, tknUpperPair, otherLowerPair].map
        (fun p => HexToAddress p.ERC20Addr)).dedup).length = 2 :=
  ⟨by decide,
    buildSwapPairInstance_size [tknPair, otherPair, tknUpperPair, otherLowerPair] (by decide),
    by decide⟩

/-- C6: for a list of pairs whose bound strings all parse and every pair `p` of
it, the mapping returned by `buildSwapPairInstance` holds, under
`HexToAddress p.ERC20Addr`, the record built from the last pair `q` of the list
with that canonical source address: symbol, name and decimals of `q`, the
integers its two bound strings denote, and the canonical forms of its two
address strings. -/
theorem buildSwapPairInstance_last_wins (pairs : List SwapPair)
    (h : ∀ p ∈ pairs, boundsParse p = true) :
    ∃ m, buildSwapPairInstance pairs = BuildResult.returned m none ∧
      ∀ p ∈ pairs, ∃ q lo hi,
        pairs.reverse.find?
          (fun r => HexToAddress r.ERC20Addr == HexToAddress p.ERC20Addr) = some q ∧
        SetString q.LowBound = some lo ∧ SetString q.UpperBound = some hi ∧
        m.lookup (HexToAddress p.ERC20Addr) = some
          { Symbol := q.Symbol
            Name := q.Name
            Decimals := q.Decimals
            LowBound := lo
            UpperBound := hi
            BEP20Addr := HexToAddress q.BEP20Addr
            ERC20Addr := HexToAddress q.ERC20Addr } := by
  refine ⟨storeAll pairs [], buildLoop_returned pairs [] h, ?_⟩
  intro p hp
  have hsome : (pairs.reverse.find?
      (fun r => HexToAddress r.ERC20Addr == HexToAddress p.ERC20Addr)).isSome = true := by
    rw [List.find?_isSome]
    exact ⟨p, List.mem_reverse.mpr hp, by simp⟩
  obtain ⟨q, hq⟩ := Option.isSome_iff_exists.mp hsome
  have hqmem : q ∈ pairs := List.mem_reverse.mp (List.mem_of_find?_eq_some hq)
  have hqb := h q hqmem
  simp only [boundsParse, Bool.and_eq_true, Option.isSome_iff_exists] at hqb
  obtain ⟨⟨lo, hlo⟩, ⟨hi, hhi⟩⟩ := hqb
  refine ⟨q, lo, hi, hq, hlo, hhi, ?_⟩
  have hl := lookup_storeAll pairs [] (HexToAddress p.ERC20Addr)
  have hq2 : pairs.reverse.find? (fun r => keyOf r == HexToAddress p.ERC20Addr) = some q := hq
  rw [hq2] at hl
  rw [hl]
  simp [recordOf, mkSwapPairIns, hlo, hhi]

/-- C6, at the scenario of the specification: the single pair `TKN` with bounds
`100` and `1000000` gives one entry, keyed by `0x1111...`, with those bounds. -/
theorem buildSwapPairInstance_last_wins_witness :
    (∀ p ∈ [tknPair], boundsParse p = true) ∧
    (∃ m, buildSwapPairInstance [tknPair] = BuildResult.returned m none ∧
      ∀ p ∈ [tknPair], ∃ q lo hi,
        [tknPair].reverse.find?
          (fun r => HexToAddress r.ERC20Addr == HexToAddress p.ERC20Addr) = some q ∧
        SetString q.LowBound = some lo ∧ SetString q.UpperBound = some hi ∧
        m.lookup (HexToAddress p.ERC20Addr) = some
          { Symbol := q.Symbol
            Name := q.Name
            Decimals := q.Decimals
            LowBound := lo
            UpperBound := hi
            BEP20Addr := HexToAddress q.BEP20Addr
            ERC20Addr := HexToAddress q.ERC20Addr }) ∧
    buildSwapPairInstance [tknPair] = BuildResult.returned
      [(List.replicate 20 17,
        { Symbol := "TKN"
          Name := "Token"
          Decimals := 18
          LowBound := 100
          UpperBound := 1000000
          BEP20Addr := List.replicate 20 34
          ERC20Addr := List.replicate 20 17 })] none :=
  ⟨by decide, buildSwapPairInstance_last_wins [tknPair] (by decide), by decide⟩

/-- C7, as stated, fails: the list with the single pair of bounds `-7` and `-9`
is built without error, and its record has a negative lower bound that exceeds
the upper bound. -/
theorem buildSwapPairInstance_bounds_unchecked :
    ¬ (∀ (pairs : List SwapPair) (m : AddrMap SwapPairIns),
        buildSwapPairInstance pairs = BuildResult.returned m none →
        ∀ e ∈ m, 0 ≤ e.2.LowBound ∧ e.2.LowBound ≤ e.2.UpperBound) := by
  intro hall
  have hrun : buildSwapPairInstance [negativePair] = BuildResult.returned
      [(List.replicate 20 17, mkSwapPairIns negativePair (-7) (-9))] none := by decide
  have h := hall [negativePair] _ hrun _ (List.mem_singleton.mpr rfl)
  exact absurd h.1 (by decide)

/-- C7, amended: when `buildSwapPairInstance` returns a mapping and the bound
strings of every pair of the list denote integers `lo`, `hi` with
`0 ≤ lo ≤ hi`, every record of the mapping satisfies `0 ≤ LowBound ≤ UpperBound`.
The function itself checks neither the sign nor the order. -/
theorem buildSwapPairInstance_bounds_preserved (pairs : List SwapPair)
    (m : AddrMap SwapPairIns)
    (hrun : buildSwapPairInstance pairs = BuildResult.returned m none)
    (hin : ∀ p ∈ pairs, ∀ lo hi, SetString p.LowBound = some lo →
      SetString p.UpperBound = some hi → 0 ≤ lo ∧ lo ≤ hi) :
    ∀ e ∈ m, 0 ≤ e.2.LowBound ∧ e.2.LowBound ≤ e.2.UpperBound := by
  have hparse : ∀ p ∈ pairs, boundsParse p = true := by
    intro p hp
    by_contra hne
    have hf : boundsParse p = false := by simpa using hne
    obtain ⟨msg, hmsg⟩ := buildLoop_panicked pairs [] ⟨p, hp, hf⟩
    unfold buildSwapPairInstance at hrun
    rw [hmsg] at hrun
    exact BuildResult.noConfusion hrun
  have hret := buildLoop_returned pairs [] hparse
  unfold buildSwapPairInstance at hrun
  rw [hret] at hrun
  have hm : storeAll pairs [] = m := by
    injection hrun
  intro e he
  rw [← hm] at he
  rcases mem_storeAll pairs [] e he with h0 | ⟨p, hp, hep⟩
  · exact absurd h0 (List.not_mem_nil e)
  · have hb := hparse p hp
    simp only [boundsParse, Bool.and_eq_true, Option.isSome_iff_exists] at hb
    obtain ⟨⟨lo, hlo⟩, ⟨hi, hhi⟩⟩ := hb
    have := hin p hp lo hi hlo hhi
    rw [hep]
    simpa [recordOf, mkSwapPairIns, hlo, hhi] using this

/-- C7 amended, at two pairs with ordered non-negative bounds. -/
theorem buildSwapPairInstance_bounds_preserved_witness :
    buildSwapPairInstance [tknPair, otherPair]
      = BuildResult.returned (storeAll [tknPair, otherPair] []) none ∧
    ∀ e ∈ storeAll [tknPair, otherPair] [],
      0 ≤ e.2.LowBound ∧ e.2.LowBound ≤ e.2.UpperBound :=
  ⟨by decide,
    buildSwapPairInstance_bounds_preserved [tknPair, otherPair]
      (storeAll [tknPair, otherPair] []) (by decide) (by
        intro p hp lo hi hlo hhi
        simp only [List.mem_cons, List.mem_singleton, List.not_mem_nil, or_false] at hp
        rcases hp with rfl | rfl
        · have h1 : SetString tknPair.LowBound = some 100 := by decide
          have h2 : SetString tknPair.UpperBound = some 1000000 := by decide
          rw [h1] at hlo
          rw [h2] at hhi
          cases hlo
          cases hhi
          decide
        · have h1 : SetString otherPair.LowBound = some 1 := by decide
          have h2 : SetString otherPair.UpperBound = some 2 := by decide
          rw [h1] at hlo
          rw [h2] at hhi
          cases hlo
          cases hhi
          decide)⟩

/-- C8, as stated, fails: a pair whose source address string is not hex and
whose destination address string has 21 bytes is built without error; the
source address is coerced to the zero address and the destination address is
truncated to its last 20 bytes. -/
theorem buildSwapPairInstance_address_unchecked :
    ¬ (∀ pairs : List SwapPair,
        (∃ p ∈ pairs, isHexAddress p.ERC20Addr = false ∨ isHexAddress p.BEP20Addr = false) →
        ∃ msg, buildSwapPairInstance pairs = BuildResult.panicked msg) := by
  intro hall
  have hrun : buildSwapPairInstance [badAddrPair] = BuildResult.returned
      [(zeroAddress,
        { Symbol := "BAD"
          Name := "Bad"
          Decimals := 18
          LowBound := 1
          UpperBound := 2
          BEP20Addr := List.replicate 20 34
          ERC20Addr := zeroAddress })] none := by decide
  obtain ⟨msg, hmsg⟩ := hall [badAddrPair] (by decide)
  rw [hrun] at hmsg
  exact BuildResult.noConfusion hmsg

/-- C8, amended: `buildSwapPairInstance` does not validate address strings. For
every list of pairs whose bound strings parse it returns a mapping with a nil
error, whatever the address strings are, and every entry of the mapping comes
from a pair `p` of the list: its key and its source address are
`HexToAddress p.ERC20Addr`, its destination address is
`HexToAddress p.BEP20Addr`, and each of them has 20 bytes. -/
theorem buildSwapPairInstance_address_coerced (pairs : List SwapPair)
    (h : ∀ p ∈ pairs, boundsParse p = true) :
    ∃ m, buildSwapPairInstance pairs = BuildResult.returned m none ∧
      ∀ e ∈ m, ∃ p ∈ pairs,
        e.1 = HexToAddress p.ERC20Addr ∧
        e.2.ERC20Addr = HexToAddress p.ERC20Addr ∧
        e.2.BEP20Addr = HexToAddress p.BEP20Addr ∧
        e.1.length = 20 ∧ e.2.ERC20Addr.length = 20 ∧ e.2.BEP20Addr.length = 20 := by
  refine ⟨storeAll pairs [], buildLoop_returned pairs [] h, ?_⟩
  intro e he
  rcases mem_storeAll pairs [] e he with h0 | ⟨p, hp, hep⟩
  · exact absurd h0 (List.not_mem_nil e)
  · refine ⟨p, hp, ?_⟩
    rw [hep]
    simp [keyOf, recordOf, mkSwapPairIns, HexToAddress_length]

/-- C8 amended, at a list with a malformed source and destination address. -/
theorem buildSwapPairInstance_address_coerced_witness :
    (isHexAddress badAddrPair.ERC20Addr = false ∧ isHexAddress badAddrPair.BEP20Addr = false) ∧
    ∃ m, buildSwapPairInstance [tknPair, badAddrPair] = BuildResult.returned m none ∧
      ∀ e ∈ m, ∃ p ∈ [tknPair, badAddrPair],
        e.1 = HexToAddress p.ERC20Addr ∧
        e.2.ERC20Addr = HexToAddress p.ERC20Addr ∧
        e.2.BEP20Addr = HexToAddress p.BEP20Addr ∧
        e.1.length = 20 ∧ e.2.ERC20Addr.length = 20 ∧ e.2.BEP20Addr.length = 20 :=
  ⟨by decide, buildSwapPairInstance_address_coerced [tknPair, badAddrPair] (by decide)⟩

/-! ## Transaction building: the claims -/

theorem buildSignedTransaction_failsClosed {Key σ : Type} (crypto : Crypto Key)
    (cl : EthClient σ) (w : σ) (contract : Address) (txInput : List Nat) (key : Key) :
    FailsClosed crypto cl w key
      (fun gp =>
        { From := crypto.PubkeyToAddress key, To := some contract, Gas := 0, GasPrice := gp,
          Value := 0, Data := txInput })
      (fun nonce gp gl => NewTransaction nonce contract 0 gl gp txInput)
      (buildSignedTransaction crypto cl w contract txInput key) := by
  unfold FailsClosed Snapshot
  rcases h1 : cl.PendingNonceAt w (crypto.PubkeyToAddress key) with ⟨r1, w1⟩
  rcases r1 with e1 | nonce
  · simp [buildSignedTransaction, NewKeyedTransactor, h1]
  · rcases h2 : cl.SuggestGasPrice w1 with ⟨r2, w2⟩
    rcases r2 with e2 | gp
    · simp [buildSignedTransaction, NewKeyedTransactor, h1, h2]
      repeat' apply And.intro
      all_goals (intros; subst_vars; simp_all)
    · rcases h3 : cl.EstimateGas w2
        { From := crypto.PubkeyToAddress key, To := some contract, Gas := 0, GasPrice := gp,
          Value := 0, Data := txInput } with ⟨r3, w3⟩
      rcases r3 with e3 | gl
      · simp [buildSignedTransaction, NewKeyedTransactor, h1, h2, h3]
        repeat' apply And.intro
        all_goals (intros; subst_vars; simp_all)
      · rcases h4 : crypto.Sign key (NewTransaction nonce contract 0 gl gp txInput) with e4 | sig
        · simp [buildSignedTransaction, NewKeyedTransactor, h1, h2, h3, h4]
          repeat' apply And.intro
          all_goals (intros; subst_vars; simp_all)
        · simp [buildSignedTransaction, NewKeyedTransactor, h1, h2, h3, h4]
          refine ⟨⟨nonce, gp, gl, ⟨w1, ⟨rfl, rfl⟩, w2, h2, h3⟩, sig, h4⟩, ?_⟩
          repeat' apply And.intro
          all_goals (intros; subst_vars; simp_all)

theorem buildNativeCoinTransferTx_failsClosed {Key σ : Type} (crypto : Crypto Key)
    (cl : EthClient σ) (w : σ) (contract : Address) (value : Int) (key : Key) :
    FailsClosed crypto cl w key
      (fun gp =>
        { From := crypto.PubkeyToAddress key, To := some contract, Gas := 0, GasPrice := gp,
          Value := value, Data := [] })
      (fun nonce gp gl => NewTransaction nonce contract value gl gp [])
      (buildNativeCoinTransferTx crypto cl w contract value key) := by
  unfold FailsClosed Snapshot
  rcases h1 : cl.PendingNonceAt w (crypto.PubkeyToAddress key) with ⟨r1, w1⟩
  rcases r1 with e1 | nonce
  · simp [buildNativeCoinTransferTx, NewKeyedTransactor, h1]
  · rcases h2 : cl.SuggestGasPrice w1 with ⟨r2, w2⟩
    rcases r2 with e2 | gp
    · simp [buildNativeCoinTransferTx, NewKeyedTransactor, h1, h2]
      repeat' apply And.intro
      all_goals (intros; subst_vars; simp_all)
    · rcases h3 : cl.EstimateGas w2
        { From := crypto.PubkeyToAddress key, To := some contract, Gas := 0, GasPrice := gp,
          Value := value, Data := [] } with ⟨r3, w3⟩
      rcases r3 with e3 | gl
      · simp [buildNativeCoinTransferTx, NewKeyedTransactor, h1, h2, h3]
        repeat' apply And.intro
        all_goals (intros; subst_vars; simp_all)
      · rcases h4 : crypto.Sign key (NewTransaction nonce contract value gl gp []) with e4 | sig
        · simp [buildNativeCoinTransferTx, NewKeyedTransactor, h1, h2, h3, h4]
          repeat' apply And.intro
          all_goals (intros; subst_vars; simp_all)
        · simp [buildNativeCoinTransferTx, NewKeyedTransactor, h1, h2, h3, h4]
          refine ⟨⟨nonce, gp, gl, ⟨w1, ⟨rfl, rfl⟩, w2, h2, h3⟩, sig, h4⟩, ?_⟩
          repeat' apply And.intro
          all_goals (intros; subst_vars; simp_all)

/-- C3: for every chain client, starting state and cryptography,
`buildSignedTransaction` and `buildNativeCoinTransferTx` fail closed
(`FailsClosed`): the result is a transaction or an error, never both; a
transaction is returned only when the nonce query, the gas-price query, the
gas estimation and the signature all succeeded; each failing step gives an
error and no transaction; and a failed gas estimation gives the error
"failed to estimate gas needed: ..." with no signing step performed. -/
theorem build_fails_closed {Key σ : Type} (crypto : Crypto Key) (cl : EthClient σ) (w : σ)
    (contract : Address) (txInput : List Nat) (value : Int) (key : Key) :
    FailsClosed crypto cl w key
      (fun gp =>
        { From := crypto.PubkeyToAddress key, To := some contract, Gas := 0, GasPrice := gp,
          Value := 0, Data := txInput })
      (fun nonce gp gl => NewTransaction nonce contract 0 gl gp txInput)
      (buildSignedTransaction crypto cl w contract txInput key) ∧
    FailsClosed crypto cl w key
      (fun gp =>
        { From := crypto.PubkeyToAddress key, To := some contract, Gas := 0, GasPrice := gp,
          Value := value, Data := [] })
      (fun nonce gp gl => NewTransaction nonce contract value gl gp [])
      (buildNativeCoinTransferTx crypto cl w contract value key) :=
  ⟨buildSignedTransaction_failsClosed crypto cl w contract txInput key,
    buildNativeCoinTransferTx_failsClosed crypto cl w contract value key⟩

/-- C3, at a client whose simulated call reverts: both builds return the
estimation error and no transaction after three steps, none of them a
signature. -/
theorem build_fails_closed_witness :
    (FailsClosed toyCrypto revertClient 0 3
      (fun gp =>
        { From := toyCrypto.PubkeyToAddress 3, To := some (List.replicate 20 9), Gas := 0,
          GasPrice := gp, Value := 0, Data := [1, 2] })
      (fun nonce gp gl => NewTransaction nonce (List.replicate 20 9) 0 gl gp [1, 2])
      (buildSignedTransaction toyCrypto revertClient 0 (List.replicate 20 9) [1, 2] 3) ∧
    FailsClosed toyCrypto revertClient 0 3
      (fun gp =>
        { From := toyCrypto.PubkeyToAddress 3, To := some (List.replicate 20 9), Gas := 0,
          GasPrice := gp, Value := 40, Data := [] })
      (fun nonce gp gl => NewTransaction nonce (List.replicate 20 9) 40 gl gp [])
      (buildNativeCoinTransferTx toyCrypto revertClient 0 (List.replicate 20 9) 40 3)) ∧
    (buildSignedTransaction toyCrypto revertClient 0 (List.replicate 20 9) [1, 2] 3).tx = none ∧
    (buildSignedTransaction toyCrypto revertClient 0 (List.replicate 20 9) [1, 2] 3).err
      = some "failed to estimate gas needed: execution reverted" ∧
    (buildSignedTransaction toyCrypto revertClient 0 (List.replicate 20 9) [1, 2] 3).steps.length
      = 3 ∧
    (buildNativeCoinTransferTx toyCrypto revertClient 0 (List.replicate 20 9) 40 3).tx = none ∧
    (buildNativeCoinTransferTx toyCrypto revertClient 0 (List.replicate 20 9) 40 3).err
      = some "failed to estimate gas needed: execution reverted" :=
  ⟨build_fails_closed toyCrypto revertClient 0 (List.replicate 20 9) [1, 2] 40 3,
    by decide, by decide, by decide, by decide, by decide⟩

/-- C9: whenever `buildSignedTransaction` succeeds, the returned transaction
carries the snapshot taken by that call: the pending nonce returned for the
address of the private key, the given contract as recipient, value 0, the
suggested gas price returned, the gas estimate returned for the call message
(that sender, that contract, that gas price, value 0, the given payload) and
the given payload. Whenever `buildNativeCoinTransferTx` succeeds the same
holds with the given value and empty data, in the call message and in the
transaction. -/
theorem build_carries_snapshot {Key σ : Type} (crypto : Crypto Key) (cl : EthClient σ) (w : σ)
    (contract : Address) (txInput : List Nat) (value : Int) (key : Key) :
    ((buildSignedTransaction crypto cl w contract txInput key).err = none →
      ∃ t nonce gasPrice gasLimit,
        (buildSignedTransaction crypto cl w contract txInput key).tx = some t ∧
        Snapshot cl w (crypto.PubkeyToAddress key)
          (fun gp =>
            { From := crypto.PubkeyToAddress key, To := some contract, Gas := 0,
              GasPrice := gp, Value := 0, Data := txInput })
          nonce gasPrice gasLimit
          (buildSignedTransaction crypto cl w contract txInput key).world ∧
        t.AccountNonce = nonce ∧ t.Recipient = some contract ∧ t.Amount = 0 ∧
        t.Price = gasPrice ∧ t.GasLimit = gasLimit ∧ t.Payload = txInput) ∧
    ((buildNativeCoinTransferTx crypto cl w contract value key).err = none →
      ∃ t nonce gasPrice gasLimit,
        (buildNativeCoinTransferTx crypto cl w contract value key).tx = some t ∧
        Snapshot cl w (crypto.PubkeyToAddress key)
          (fun gp =>
            { From := crypto.PubkeyToAddress key, To := some contract, Gas := 0,
              GasPrice := gp, Value := value, Data := [] })
          nonce gasPrice gasLimit
          (buildNativeCoinTransferTx crypto cl w contract value key).world ∧
        t.AccountNonce = nonce ∧ t.Recipient = some contract ∧ t.Amount = value ∧
        t.Price = gasPrice ∧ t.GasLimit = gasLimit ∧ t.Payload = []) := by
  constructor
  · unfold Snapshot
    rcases h1 : cl.PendingNonceAt w (crypto.PubkeyToAddress key) with ⟨r1, w1⟩
    rcases r1 with e1 | nonce
    · simp [buildSignedTransaction, NewKeyedTransactor, h1]
    · rcases h2 : cl.SuggestGasPrice w1 with ⟨r2, w2⟩
      rcases r2 with e2 | gp
      · simp [buildSignedTransaction, NewKeyedTransactor, h1, h2]
      · rcases h3 : cl.EstimateGas w2
          { From := crypto.PubkeyToAddress key, To := some contract, Gas := 0, GasPrice := gp,
            Value := 0, Data := txInput } with ⟨r3, w3⟩
        rcases r3 with e3 | gl
        · simp [buildSignedTransaction, NewKeyedTransactor, h1, h2, h3]
        · rcases h4 : crypto.Sign key (NewTransaction nonce contract 0 gl gp txInput)
            with e4 | sig
          · simp [buildSignedTransaction, NewKeyedTransactor, h1, h2, h3, h4]
          · intro _
            refine ⟨{ NewTransaction nonce contract 0 gl gp txInput with
              R := sig.R, S := sig.S, V := sig.V }, nonce, gp, gl, ?_, ?_, ?_⟩
            · simp [buildSignedTransaction, NewKeyedTransactor, h1, h2, h3, h4]
            · refine ⟨w1, w2, rfl, h2, ?_⟩
              simp [buildSignedTransaction, NewKeyedTransactor, h1, h2, h3, h4]
            · simp [NewTransaction]
  · unfold Snapshot
    rcases h1 : cl.PendingNonceAt w (crypto.PubkeyToAddress key) with ⟨r1, w1⟩
    rcases r1 with e1 | nonce
    · simp [buildNativeCoinTransferTx, NewKeyedTransactor, h1]
    · rcases h2 : cl.SuggestGasPrice w1 with ⟨r2, w2⟩
      rcases r2 with e2 | gp
      · simp [buildNativeCoinTransferTx, NewKeyedTransactor, h1, h2]
      · rcases h3 : cl.EstimateGas w2
          { From := crypto.PubkeyToAddress key, To := some contract, Gas := 0, GasPrice := gp,
            Value := value, Data := [] } with ⟨r3, w3⟩
        rcases r3 with e3 | gl
        · simp [buildNativeCoinTransferTx, NewKeyedTransactor, h1, h2, h3]
        · rcases h4 : crypto.Sign key (NewTransaction nonce contract value gl gp [])
            with e4 | sig
          · simp [buildNativeCoinTransferTx, NewKeyedTransactor, h1, h2, h3, h4]
          · intro _
            refine ⟨{ NewTransaction nonce contract value gl gp [] with
              R := sig.R, S := sig.S, V := sig.V }, nonce, gp, gl, ?_, ?_, ?_⟩
            · simp [buildNativeCoinTransferTx, NewKeyedTransactor, h1, h2, h3, h4]
            · refine ⟨w1, w2, rfl, h2, ?_⟩
              simp [buildNativeCoinTransferTx, NewKeyedTransactor, h1, h2, h3, h4]
            · simp [NewTransaction]

/-- C9, at a client whose queries all succeed: nonce 7, gas price 5000000000,
gas limit 21136 for a two-byte payload and 21000 for a plain transfer. -/
theorem build_carries_snapshot_witness :
    ((buildSignedTransaction toyCrypto okClient 0 (List.replicate 20 9) [1, 2] 3).err = none ∧
      (buildNativeCoinTransferTx toyCrypto okClient 0 (List.replicate 20 9) 40 3).err = none) ∧
    (buildSignedTransaction toyCrypto okClient 0 (List.replicate 20 9) [1, 2] 3).tx = some
      { AccountNonce := 7, Price := 5000000000, GasLimit := 21136,
        Recipient := some (List.replicate 20 9), Amount := 0, Payload := [1, 2],
        V := 27, R := 10, S := 2 } ∧
    (buildNativeCoinTransferTx toyCrypto okClient 0 (List.replicate 20 9) 40 3).tx = some
      { AccountNonce := 7, Price := 5000000000, GasLimit := 21000,
        Recipient := some (List.replicate 20 9), Amount := 40, Payload := [],
        V := 27, R := 10, S := 2 } ∧
    (∃ t nonce gasPrice gasLimit,
        (buildSignedTransaction toyCrypto okClient 0 (List.replicate 20 9) [1, 2] 3).tx
          = some t ∧
        Snapshot okClient 0 (toyCrypto.PubkeyToAddress 3)
          (fun gp =>
            { From := toyCrypto.PubkeyToAddress 3, To := some (List.replicate 20 9), Gas := 0,
              GasPrice := gp, Value := 0, Data := [1, 2] })
          nonce gasPrice gasLimit
          (buildSignedTransaction toyCrypto okClient 0 (List.replicate 20 9) [1, 2] 3).world ∧
        t.AccountNonce = nonce ∧ t.Recipient = some (List.replicate 20 9) ∧ t.Amount = 0 ∧
        t.Price = gasPrice ∧ t.GasLimit = gasLimit ∧ t.Payload = [1, 2]) :=
  ⟨⟨by decide, by decide⟩, by decide, by decide,
    (build_carries_snapshot toyCrypto okClient 0 (List.replicate 20 9) [1, 2] 40 3).1
      (by decide)⟩

/-! ## `queryDeployedBEP20ContractAddr`: the claims -/

/-- C2: `queryDeployedBEP20ContractAddr` returns an error (and the zero
address) for every receipt whose number of logs is not 2; for a receipt with
exactly the two logs `l0`, `l1`, when the bound contract decodes `l1` to an
event `e` it returns the token address `e.Bep20Addr` with a nil error; and the
result does not depend on the first log. -/
theorem queryDeployedBEP20ContractAddr_second_log
    (NewBSCSwapAgent : Address → Except String BSCSwapAgent) (erc20Addr agentAddr : Address) :
    (∀ rcpt : Receipt, rcpt.Logs.length ≠ 2 →
      (queryDeployedBEP20ContractAddr NewBSCSwapAgent erc20Addr agentAddr rcpt).err ≠ none ∧
      (queryDeployedBEP20ContractAddr NewBSCSwapAgent erc20Addr agentAddr rcpt).addr
        = zeroAddress) ∧
    (∀ (inst : BSCSwapAgent) (l0 l1 : Log) (e : SwapPairCreated),
      NewBSCSwapAgent agentAddr = Except.ok inst →
      inst.ParseSwapPairCreated l1 = (some e, none) →
      queryDeployedBEP20ContractAddr NewBSCSwapAgent erc20Addr agentAddr { Logs := [l0, l1] }
        = { addr := e.Bep20Addr, err := none }) ∧
    (∀ l0 l0' l1 : Log,
      queryDeployedBEP20ContractAddr NewBSCSwapAgent erc20Addr agentAddr { Logs := [l0, l1] }
        = queryDeployedBEP20ContractAddr NewBSCSwapAgent erc20Addr agentAddr
            { Logs := [l0', l1] }) := by
  refine ⟨?_, ?_, ?_⟩
  · intro rcpt hlen
    unfold queryDeployedBEP20ContractAddr
    cases NewBSCSwapAgent agentAddr with
    | error err => simp
    | ok inst => simp [hlen]
  · intro inst l0 l1 e hnew hparse
    unfold queryDeployedBEP20ContractAddr
    simp [hnew, hparse]
  · intro l0 l0' l1
    unfold queryDeployedBEP20ContractAddr
    cases NewBSCSwapAgent agentAddr with
    | error err => rfl
    | ok inst => simp

/-- C2, at receipts with one, two and three logs. -/
theorem queryDeployedBEP20ContractAddr_second_log_witness :
    (queryDeployedBEP20ContractAddr (fun _ => Except.ok sampleAgent) (List.replicate 20 17)
        (List.replicate 20 8) { Logs := [pairCreatedLog] }).err
      = some "Expected tx logs length in recipient is 2, actual it is 1" ∧
    (queryDeployedBEP20ContractAddr (fun _ => Except.ok sampleAgent) (List.replicate 20 17)
        (List.replicate 20 8) { Logs := [approvalLog, pairCreatedLog, approvalLog] }).err
      = some "Expected tx logs length in recipient is 2, actual it is 3" ∧
    queryDeployedBEP20ContractAddr (fun _ => Except.ok sampleAgent) (List.replicate 20 17)
        (List.replicate 20 8) { Logs := [approvalLog, pairCreatedLog] }
      = { addr := List.replicate 20 52, err := none } ∧
    queryDeployedBEP20ContractAddr (fun _ => Except.ok sampleAgent) (List.replicate 20 17)
        (List.replicate 20 8) { Logs := [pairCreatedLog, approvalLog] }
      = { addr := zeroAddress, err := some "event signature mismatch" } ∧
    queryDeployedBEP20ContractAddr (fun _ => Except.ok sampleAgent) (List.replicate 20 17)
        (List.replicate 20 8) { Logs := [approvalLog, pairCreatedLog] }
      = { addr := (⟨List.replicate 32 1, List.replicate 20 52, List.replicate 20 17, "TKN",
            "Token", 18⟩ : SwapPairCreated).Bep20Addr, err := none } :=
  ⟨by decide, by decide, by decide, by decide,
    (queryDeployedBEP20ContractAddr_second_log (fun _ => Except.ok sampleAgent)
      (List.replicate 20 17) (List.replicate 20 8)).2.1 sampleAgent approvalLog pairCreatedLog
      ⟨List.replicate 32 1, List.replicate 20 52, List.replicate 20 17, "TKN", "Token", 18⟩
      rfl (by decide)⟩

theorem HasPrefix_0x_iff (s : String) :
    HasPrefix s "0x" = true ↔ ∃ r, s.data = '0' :: 'x' :: r := by
  unfold HasPrefix
  rw [List.isPrefixOf_iff_prefix]
  constructor
  · rintro ⟨r, hr⟩
    exact ⟨r, hr.symm⟩
  · rintro ⟨r, hr⟩
    exact ⟨r, hr.symm⟩

theorem HasPrefix_0x_of_hex (s : String) (h : isHexString s = true) :
    HasPrefix s "0x" = false := by
  cases hp : HasPrefix s "0x" with
  | false => rfl
  | true =>
    obtain ⟨r, hd⟩ := (HasPrefix_0x_iff s).mp hp
    unfold isHexString at h
    rw [hd] at h
    simp only [List.all_cons, Bool.and_eq_true] at h
    exact absurd h.2.1 (by decide)

theorem BuildKeys_strip {Priv Pub : Type} (HexToECDSA : String → Except String Priv)
    (Public : Priv → Option Pub) (t : String) :
    BuildKeys HexToECDSA Public ("0x" ++ t) = keysOf HexToECDSA Public t := by
  have hd : ("0x" ++ t).data = '0' :: 'x' :: t.data := by
    rw [String.data_append]
    rfl
  have hl : HasPrefix ("0x" ++ t) "0x" = true := (HasPrefix_0x_iff _).mpr ⟨t.data, hd⟩
  unfold BuildKeys keysOf
  simp only [hl, if_true, hd, List.drop_succ_cons, List.drop_zero]

theorem BuildKeys_plain {Priv Pub : Type} (HexToECDSA : String → Except String Priv)
    (Public : Priv → Option Pub) (t : String) (h : HasPrefix t "0x" = false) :
    BuildKeys HexToECDSA Public t = keysOf HexToECDSA Public t := by
  unfold BuildKeys keysOf
  simp [h]

/-- C4: for every string `s` of hex digits, `BuildKeys` gives the same outcome
on `"0x" ++ s` and on `s`, namely what the hex-to-key parser makes of `s`: the
same key pair, or the same failure. It strips one leading `0x` only: on
`"0x" ++ t`, for any string `t`, it gives what the parser makes of `t`. -/
theorem BuildKeys_hex_lead {Priv Pub : Type} (HexToECDSA : String → Except String Priv)
    (Public : Priv → Option Pub) (s : String) (h : isHexString s = true) :
    BuildKeys HexToECDSA Public ("0x" ++ s) = BuildKeys HexToECDSA Public s ∧
    BuildKeys HexToECDSA Public s = keysOf HexToECDSA Public s ∧
    ∀ t : String, BuildKeys HexToECDSA Public ("0x" ++ t) = keysOf HexToECDSA Public t := by
  have hp := BuildKeys_plain HexToECDSA Public s (HasPrefix_0x_of_hex s h)
  exact ⟨by rw [BuildKeys_strip, hp], hp, BuildKeys_strip HexToECDSA Public⟩

/-- C4, at a key of 64 hex digits, which the stand-in parser accepts. -/
theorem BuildKeys_hex_lead_witness :
    isHexString sampleKeyHex = true ∧
    (BuildKeys toyHexToECDSA toyPublic ("0x" ++ sampleKeyHex)
        = BuildKeys toyHexToECDSA toyPublic sampleKeyHex ∧
      BuildKeys toyHexToECDSA toyPublic sampleKeyHex
        = keysOf toyHexToECDSA toyPublic sampleKeyHex ∧
      ∀ t : String, BuildKeys toyHexToECDSA toyPublic ("0x" ++ t)
        = keysOf toyHexToECDSA toyPublic t) ∧
    (BuildKeys toyHexToECDSA toyPublic ("0x" ++ sampleKeyHex)).priKey
      = some sampleKeyHex.data ∧
    (BuildKeys toyHexToECDSA toyPublic ("0x" ++ sampleKeyHex)).err = none :=
  ⟨by decide, BuildKeys_hex_lead toyHexToECDSA toyPublic sampleKeyHex (by decide),
    by decide, by decide⟩

end Swap
